import Mathlib

/-!
# Verification of the books-vault core (validators, search, sorter, repository, codec)

Shallow embedding of the JavaScript sources of the book-cataloging application:
`scripts/validators.js`, `scripts/search.js` (second half of the validators file),
`scripts/storage.js`, `state.js` (repository), and `stats.js` (aggregator).

Modelling conventions:
* JS strings are Lean `String` / `List Char`; machine-level UTF-16 details are not
  relevant to any property proved here.
* JS numbers appearing in this code are integers (`Int`), with `Option Int` where a
  value can be `NaN` (`none` = NaN); the single floating-point division in the
  aggregator is modelled with exact rationals (`ℚ`).
* The host regexes are translated literally into decidable character-list matchers.
* `new Date(s)` (used only to test calendar validity and to order ISO dates) is
  modelled for `YYYY-MM-DD`-shaped strings: the engines accept exactly the strings
  whose components form a real proleptic-Gregorian date, and order them by their
  epoch timestamp; other shapes are modelled as an invalid date (`none`), which is
  the only regime the code reaches them in.
-/

namespace BooksVault

/-! ## JS character and string primitives -/

/-- JS whitespace (the `\s` class and `String.prototype.trim`): the common members;
exotic Unicode space separators do not occur in any property below. -/
def jsIsSpace (c : Char) : Bool :=
  c = ' ' || c = '\t' || c = '\n' || c = '\r' || c = '\x0b' || c = '\x0c' ||
  c = '\u00a0' || c = '\ufeff'

/-- JS line terminators, which `.` in a regex does not match. -/
def jsLineTerm (c : Char) : Bool :=
  c = '\n' || c = '\r' || c = '\u2028' || c = '\u2029'

/-- `value.trim().length === 0`. -/
def jsTrimEmpty (s : String) : Bool := s.data.all jsIsSpace

def isDig (c : Char) : Bool := '0' ≤ c && c ≤ '9'

def isAlphaJS (c : Char) : Bool := ('A' ≤ c && c ≤ 'Z') || ('a' ≤ c && c ≤ 'z')

def digVal (c : Char) : Nat := c.toNat - '0'.toNat

def digitsVal (l : List Char) : Nat := l.foldl (fun a c => a * 10 + digVal c) 0

def isHexDig (c : Char) : Bool :=
  isDig c || ('a' ≤ c && c ≤ 'f') || ('A' ≤ c && c ≤ 'F')

def hexDigVal (c : Char) : Nat :=
  if isDig c then digVal c
  else if 'a' ≤ c && c ≤ 'f' then c.toNat - 'a'.toNat + 10
  else c.toNat - 'A'.toNat + 10

def hexVal (l : List Char) : Nat := l.foldl (fun a c => a * 16 + hexDigVal c) 0

/-- Decimal digit-run parse shared by both `parseInt` models: the longest leading
digit run; no digits means `NaN` (`none`). -/
def jsParseIntCore (sign : Int) (l : List Char) : Option Int :=
  let ds := l.takeWhile isDig
  if ds.isEmpty then none else some (sign * (digitsVal ds : Int))

/-- `parseInt(value, 10)`: skip whitespace, optional sign, decimal digits. -/
def jsParseInt10 (s : String) : Option Int :=
  match s.data.dropWhile jsIsSpace with
  | '-' :: r => jsParseIntCore (-1) r
  | '+' :: r => jsParseIntCore 1 r
  | l => jsParseIntCore 1 l

/-- The body of `parseInt(value)` without a radix: a `0x`/`0X` prefix switches to
hexadecimal, otherwise decimal. -/
def jsParseIntDefCore (sign : Int) (l : List Char) : Option Int :=
  match l with
  | '0' :: 'x' :: r =>
    let ds := r.takeWhile isHexDig
    if ds.isEmpty then none else some (sign * (hexVal ds : Int))
  | '0' :: 'X' :: r =>
    let ds := r.takeWhile isHexDig
    if ds.isEmpty then none else some (sign * (hexVal ds : Int))
  | l => jsParseIntCore sign l

/-- `parseInt(value)` with no radix argument. -/
def jsParseIntDefault (s : String) : Option Int :=
  match s.data.dropWhile jsIsSpace with
  | '-' :: r => jsParseIntDefCore (-1) r
  | '+' :: r => jsParseIntDefCore 1 r
  | l => jsParseIntDefCore 1 l

/-! ## The regex patterns of `validators.js` as decidable matchers -/

/-- Tail of the title pattern: matches `.*\S` — every char but the last is any
non-line-terminator, the last is non-space. -/
def titleTail : List Char → Bool
  | [] => false
  | [c] => !jsIsSpace c
  | c :: rest => !jsLineTerm c && titleTail rest

/-- `patterns.title = /^\S(?:.*\S)?$/`. -/
def titlePattern : List Char → Bool
  | [] => false
  | c :: rest => !jsIsSpace c && (rest.isEmpty || titleTail rest)

/-- `/\s{2,}/.test(value)`: some two adjacent whitespace characters. -/
def hasDoubleSpace : List Char → Bool
  | a :: b :: rest => (jsIsSpace a && jsIsSpace b) || hasDoubleSpace (b :: rest)
  | _ => false

/-- `patterns.category = /^[A-Za-z]+(?:[ -][A-Za-z]+)*$/`, as a deterministic
scanner (the word and separator character classes are disjoint, so the regex is
deterministic). The flag records whether at least one letter of the current word
has been consumed. -/
def catAux : Bool → List Char → Bool
  | inWord, [] => inWord
  | inWord, c :: rest =>
    if isAlphaJS c then catAux true rest
    else if c = ' ' || c = '-' then inWord && catAux false rest
    else false

def categoryPattern (l : List Char) : Bool := catAux false l

/-- `patterns.pages = /^[1-9]\d*$/`. -/
def pagesPattern : List Char → Bool
  | [] => false
  | c :: rest => ('1' ≤ c && c ≤ '9') && rest.all isDig

/-- `patterns.date = /^\d{4}-(0[1-9]|1[0-2])-(0[1-9]|[12]\d|3[01])$/`. -/
def datePattern : List Char → Bool
  | [a, b, c, d, e, f, g, h, i, j] =>
    isDig a && isDig b && isDig c && isDig d && e = '-' &&
    ((f = '0' && '1' ≤ g && g ≤ '9') || (f = '1' && (g = '0' || g = '1' || g = '2'))) &&
    h = '-' &&
    ((i = '0' && '1' ≤ j && j ≤ '9') || ((i = '1' || i = '2') && isDig j) ||
     (i = '3' && (j = '0' || j = '1')))
  | _ => false

/-- The import-side date check `/^\d{4}-\d{2}-\d{2}$/` from `storage.js`. -/
def dateShape : List Char → Bool
  | [a, b, c, d, e, f, g, h, i, j] =>
    isDig a && isDig b && isDig c && isDig d && e = '-' &&
    isDig f && isDig g && h = '-' && isDig i && isDig j
  | _ => false

/-! ## Model of `new Date(s)` on ISO `YYYY-MM-DD` strings -/

def isLeap (y : Nat) : Bool := y % 4 = 0 && (y % 100 ≠ 0 || y % 400 = 0)

def daysInMonth (y m : Nat) : Nat :=
  if m = 2 then (if isLeap y then 29 else 28)
  else if m = 4 || m = 6 || m = 9 || m = 11 then 30
  else 31

/-- Read the three numeric components of an `\d{4}-\d{2}-\d{2}`-shaped string. -/
def parseIsoDateChars : List Char → Option (Nat × Nat × Nat)
  | [a, b, c, d, e, f, g, h, i, j] =>
    if isDig a && isDig b && isDig c && isDig d && e = '-' &&
       isDig f && isDig g && h = '-' && isDig i && isDig j then
      some (digitsVal [a, b, c, d], digitsVal [f, g], digitsVal [i, j])
    else none
  | _ => none

/-- Days from the Unix epoch of a civil (proleptic Gregorian) date. -/
def daysFromCivil (y m d : Nat) : Int :=
  let yy : Int := if m ≤ 2 then (y : Int) - 1 else (y : Int)
  let era : Int := (if yy ≥ 0 then yy else yy - 399) / 400
  let yoe : Int := yy - era * 400
  let doy : Int := (153 * (if m > 2 then (m : Int) - 3 else (m : Int) + 9) + 2) / 5 + d - 1
  let doe : Int := yoe * 365 + yoe / 4 - yoe / 100 + doy
  era * 146097 + doe - 719468

/-- `new Date(s).getTime()` for date-only ISO strings: `some` (milliseconds since
the epoch) exactly when the components form a real calendar date, `none` = the
engines' `Invalid Date` (`NaN` time value). -/
def jsDateMs (s : String) : Option Int :=
  match parseIsoDateChars s.data with
  | some (y, m, d) =>
    if 1 ≤ m && m ≤ 12 && 1 ≤ d && d ≤ daysInMonth y m then
      some (86400000 * daysFromCivil y m d)
    else none
  | none => none

/-! ## Field validators (`validators.js`) -/

structure VResult where
  valid : Bool
  message : String
deriving DecidableEq, Repr

def validateTitle (value : String) : VResult :=
  if value = "" || jsTrimEmpty value then ⟨false, "Title is required"⟩
  else if !titlePattern value.data then ⟨false, "Title cannot have leading/trailing spaces"⟩
  else if hasDoubleSpace value.data then ⟨false, "Title cannot have double spaces"⟩
  else if value.length < 2 then ⟨false, "Title must be at least 2 characters"⟩
  else ⟨true, ""⟩

def validateAuthor (value : String) : VResult :=
  if value = "" || jsTrimEmpty value then ⟨false, "Author is required"⟩
  else if !categoryPattern value.data then
    ⟨false, "Author must contain only letters, spaces, and hyphens"⟩
  else ⟨true, ""⟩

/-- `validatePages`: note that when `parseInt` yields `NaN`, the JS comparison
`NaN <= 0` is false, so the code falls through to the valid result. -/
def validatePages (value : String) : VResult :=
  if value = "" || jsTrimEmpty value then ⟨false, "Pages is required"⟩
  else if !pagesPattern value.data then ⟨false, "Pages must be a positive integer"⟩
  else
    match jsParseInt10 value with
    | some n => if n ≤ 0 then ⟨false, "Pages must be greater than 0"⟩ else ⟨true, ""⟩
    | none => ⟨true, ""⟩

def validateTag (value : String) : VResult :=
  if value = "" || jsTrimEmpty value then ⟨false, "Tag is required"⟩
  else if !categoryPattern value.data then
    ⟨false, "Tag must contain only letters, spaces, and hyphens"⟩
  else ⟨true, ""⟩

def validateDate (value : String) : VResult :=
  if value = "" || jsTrimEmpty value then ⟨false, "Date is required"⟩
  else if !datePattern value.data then ⟨false, "Date must be in YYYY-MM-DD format"⟩
  else if (jsDateMs value).isNone then ⟨false, "Invalid date"⟩
  else ⟨true, ""⟩

/-! ## `validateBook` -/

structure BookCandidate where
  title : String
  author : String
  pages : String
  tag : String
  date : String
deriving DecidableEq, Repr

/-- The `errors` object keyed by field name: `none` = key absent. -/
structure BookErrors where
  title : Option String
  author : Option String
  pages : Option String
  tag : Option String
  date : Option String
deriving DecidableEq, Repr

structure BookValidation where
  valid : Bool
  errors : BookErrors
deriving DecidableEq, Repr

def vErr (r : VResult) : Option String := if r.valid then none else some r.message

def validateBook (book : BookCandidate) : BookValidation :=
  let errors : BookErrors :=
    ⟨vErr (validateTitle book.title), vErr (validateAuthor book.author),
     vErr (validatePages book.pages), vErr (validateTag book.tag),
     vErr (validateDate book.date)⟩
  ⟨errors.title.isNone && errors.author.isNone && errors.pages.isNone &&
     errors.tag.isNone && errors.date.isNone, errors⟩

/-! ## Search (`search.js`): HTML escaping and `highlightMatches` -/

/-- What a browser's `div.textContent = text; div.innerHTML` escaping produces
per character. -/
def escapeHtmlChar (c : Char) : List Char :=
  if c = '&' then "&amp;".data
  else if c = '<' then "&lt;".data
  else if c = '>' then "&gt;".data
  else if c = '\u00a0' then "&nbsp;".data
  else [c]

/-- The `escapeHtml` helper of `search.js`. -/
def escapeHtml (l : List Char) : List Char := (l.map escapeHtmlChar).flatten

/-- A compiled `RegExp` as `highlightMatches` consumes it: its `global` flag, a
matching function giving the first match (start index, length) in a suffix of the
subject, and whether applying it inside the `try` block throws (which the code
catches). -/
structure JsRegex where
  global : Bool
  throws : Bool
  exec : List Char → Option (Nat × Nat)

/-- The `` match => `<mark>${match}</mark>` `` replacement. -/
def wrapMark (m : List Char) : List Char := "<mark>".data ++ m ++ "</mark>".data

/-- `String.prototype.replace` with a global regex: repeatedly take the first
match of the remaining text, emit the replacement, and continue after it (an
empty match additionally consumes one character, as the engine bumps
`lastIndex`). Fuel bounds the recursion; `length + 1` always suffices. -/
def jsReplaceAllAux (exec : List Char → Option (Nat × Nat))
    (f : List Char → List Char) : Nat → List Char → List Char
  | 0, s => s
  | fuel + 1, s =>
    match exec s with
    | none => s
    | some (i, len) =>
      let pre := s.take i
      let rest := s.drop i
      if len = 0 then
        match rest with
        | [] => pre ++ f []
        | c :: cs => pre ++ f [] ++ (c :: jsReplaceAllAux exec f fuel cs)
      else pre ++ f (rest.take len) ++ jsReplaceAllAux exec f fuel (rest.drop len)

/-- `String.prototype.replace` with a non-global regex: first match only. -/
def jsReplaceFirst (exec : List Char → Option (Nat × Nat))
    (f : List Char → List Char) (s : List Char) : List Char :=
  match exec s with
  | none => s
  | some (i, len) => s.take i ++ f ((s.drop i).take len) ++ (s.drop i).drop len

def jsReplace (r : JsRegex) (f : List Char → List Char) (s : List Char) : List Char :=
  if r.global then jsReplaceAllAux r.exec f (s.length + 1) s else jsReplaceFirst r.exec f s

/-- `highlightMatches(text, regex)`: `null`/missing regex or empty text returns
the text as is; otherwise the text is HTML-escaped and the matches wrapped in
`<mark>` tags; a failure inside the `try` returns the original text. -/
def highlightMatches (text : String) (regex : Option JsRegex) : String :=
  match regex with
  | none => text
  | some r =>
    if text = "" then text
    else if r.throws then text
    else ⟨jsReplace r wrapMark (escapeHtml text.data)⟩

/-- Modelled from the spec: the decomposition of a text into unmatched literal
segments and non-overlapping (leftmost, mutually disjoint) match spans that the
spec's `highlight` contract talks about. -/
inductive HlPiece where
  | lit (cs : List Char)
  | mat (cs : List Char)
deriving DecidableEq, Repr

/-- Modelled from the spec: collect the non-overlapping match spans of a matcher
over a text, mirroring the host engine's leftmost-repeated scan. -/
def matchPiecesAux (exec : List Char → Option (Nat × Nat)) :
    Nat → List Char → List HlPiece
  | 0, s => [.lit s]
  | fuel + 1, s =>
    match exec s with
    | none => [.lit s]
    | some (i, len) =>
      let pre := s.take i
      let rest := s.drop i
      if len = 0 then
        match rest with
        | [] => [.lit pre, .mat []]
        | c :: cs => .lit pre :: .mat [] :: .lit [c] :: matchPiecesAux exec fuel cs
      else .lit pre :: .mat (rest.take len) :: matchPiecesAux exec fuel (rest.drop len)

def matchPieces (exec : List Char → Option (Nat × Nat)) (s : List Char) : List HlPiece :=
  matchPiecesAux exec (s.length + 1) s

/-- Render a piece decomposition, wrapping every match span with `f`. -/
def renderPieces (f : List Char → List Char) : List HlPiece → List Char
  | [] => []
  | .lit cs :: rest => cs ++ renderPieces f rest
  | .mat m :: rest => f m ++ renderPieces f rest

/-- The underlying text of a piece decomposition. -/
def piecesContent : List HlPiece → List Char
  | [] => []
  | .lit cs :: rest => cs ++ piecesContent rest
  | .mat m :: rest => m ++ piecesContent rest

/-- Index of the first occurrence of a character (used to build a concrete
single-character matcher). -/
def findCharIdx (c : Char) : List Char → Option Nat
  | [] => none
  | x :: xs => if x = c then some 0 else (findCharIdx c xs).map (· + 1)

/-! ## Sorter (`sortBooks` in `search.js`) -/

structure Book where
  id : String
  title : String
  author : String
  pages : String
  tag : String
  date : String
  notes : String
  createdAt : String
  updatedAt : String
deriving DecidableEq, Repr

/-- Subtraction of two JS numbers that may be `NaN`; a `NaN` comparator result is
treated as `0` by the sort algorithm (ES `SortCompare`). -/
def optSub : Option Int → Option Int → Int
  | some a, some b => a - b
  | _, _ => 0

/-- Lexicographic three-way comparison on character lists; model of
`String.prototype.localeCompare` (which coincides with code-unit comparison for
the default locale on the data at hand). -/
def listCompare : List Char → List Char → Int
  | [], [] => 0
  | [], _ :: _ => -1
  | _ :: _, [] => 1
  | a :: as, b :: bs => if a < b then -1 else if b < a then 1 else listCompare as bs

def strCompare (a b : String) : Int := listCompare a.data b.data

def cmpDateDesc (a b : Book) : Int := optSub (jsDateMs b.date) (jsDateMs a.date)
def cmpDateAsc (a b : Book) : Int := optSub (jsDateMs a.date) (jsDateMs b.date)
def cmpTitleAsc (a b : Book) : Int := strCompare a.title b.title
def cmpTitleDesc (a b : Book) : Int := strCompare b.title a.title
def cmpPagesDesc (a b : Book) : Int :=
  optSub (jsParseIntDefault b.pages) (jsParseIntDefault a.pages)
def cmpPagesAsc (a b : Book) : Int :=
  optSub (jsParseIntDefault a.pages) (jsParseIntDefault b.pages)

/-- Stable insertion of `x` before the first element it does not have to follow:
together with `sortC` this realises the stable sort that `Array.prototype.sort`
guarantees for a consistent comparator. -/
def insertC (cmp : Book → Book → Int) (x : Book) : List Book → List Book
  | [] => [x]
  | y :: ys => if cmp x y ≤ 0 then x :: y :: ys else y :: insertC cmp x ys

def sortC (cmp : Book → Book → Int) : List Book → List Book
  | [] => []
  | x :: xs => insertC cmp x (sortC cmp xs)

/-- `sortBooks(books, sortBy)`: copies the input (`[...books]`) and sorts the
copy by the named criterion; an unrecognized criterion returns the copy in its
original order. -/
def sortBooks (books : List Book) (sortBy : String) : List Book :=
  let sorted := books
  if sortBy = "date-desc" then sortC cmpDateDesc sorted
  else if sortBy = "date-asc" then sortC cmpDateAsc sorted
  else if sortBy = "title-asc" then sortC cmpTitleAsc sorted
  else if sortBy = "title-desc" then sortC cmpTitleDesc sorted
  else if sortBy = "pages-desc" then sortC cmpPagesDesc sorted
  else if sortBy = "pages-asc" then sortC cmpPagesAsc sorted
  else sorted

/-- `sortBooks` with its effect on the caller's array made explicit: the second
component is the state of the input array after the call — the function only
spreads the input into a fresh array, so the input is returned untouched. -/
def sortBooksEff (books : List Book) (sortBy : String) : List Book × List Book :=
  (sortBooks books sortBy, books)

def supportedCriteria : List String :=
  ["date-desc", "date-asc", "title-asc", "title-desc", "pages-desc", "pages-asc"]

/-! ## Repository (`state.js`) -/

/-- The `updates` object passed to `updateBook`: any subset of fields may be
supplied (including attempts to overwrite `id`, `createdAt`, `updatedAt`). -/
structure BookUpdates where
  id : Option String := none
  title : Option String := none
  author : Option String := none
  pages : Option String := none
  tag : Option String := none
  date : Option String := none
  notes : Option String := none
  createdAt : Option String := none
  updatedAt : Option String := none
deriving DecidableEq, Repr

/-- `{ ...book, ...updates, id: book.id, createdAt: book.createdAt, updatedAt: now }`:
the trailing explicit properties win over anything in `updates`. -/
def applyUpdates (b : Book) (u : BookUpdates) (now : String) : Book :=
  { id := b.id
    title := u.title.getD b.title
    author := u.author.getD b.author
    pages := u.pages.getD b.pages
    tag := u.tag.getD b.tag
    date := u.date.getD b.date
    notes := u.notes.getD b.notes
    createdAt := b.createdAt
    updatedAt := now }

/-- `updateBook(id, updates)`: find the first record with the given id
(`findIndex`), return `null` and leave the collection alone if absent, otherwise
replace that slot with the merged record. Returns (result, collection after the
call); `now` is the value of `new Date().toISOString()`. -/
def updateBook (books : List Book) (id : String) (u : BookUpdates) (now : String) :
    Option Book × List Book :=
  match books with
  | [] => (none, [])
  | b :: rest =>
    if b.id = id then
      let nb := applyUpdates b u now
      (some nb, nb :: rest)
    else
      let r := updateBook rest id u now
      (r.1, b :: r.2)

/-- A minimal heap of arrays, to state object-identity facts about `getBooks`:
the repository's canonical array lives in one cell, the snapshot in another. -/
structure Heap where
  arrays : List (List Book)
deriving Repr

def readArr (h : Heap) (r : Nat) : List Book := (h.arrays[r]?).getD []

def writeArr (h : Heap) (r : Nat) (l : List Book) : Heap := ⟨h.arrays.set r l⟩

def allocArr (h : Heap) (l : List Book) : Heap × Nat :=
  (⟨h.arrays ++ [l]⟩, h.arrays.length)

/-- `getBooks()` = `return [...books]`: allocate a fresh array holding the same
elements and hand back a reference to it. -/
def getBooks (h : Heap) (booksRef : Nat) : Heap × Nat :=
  allocArr h (readArr h booksRef)

/-- A caller-side sequence of mutations of the snapshot array: each step rewrites
the snapshot cell as a function of its current content (covers element
assignment, `push`, `splice`, …). -/
def applyMuts (h : Heap) (r : Nat) (ops : List (List Book → List Book)) : Heap :=
  ops.foldl (fun hh f => writeArr hh r (f (readArr hh r))) h

/-! ## Import/export codec (`storage.js`)

`exportToJSON` is `JSON.stringify(books, null, 2)` and `importFromJSON` begins
with `JSON.parse(jsonString)`; the codec is modelled at the level of the JSON
value trees these functions exchange (`JSON.parse ∘ JSON.stringify` is the
identity on them). `importFromJSON` consumes the outcome of the parse —
`Except.error` being a throwing `JSON.parse`. -/

inductive Json where
  | null
  | bool (b : Bool)
  | num (n : Int)
  | str (s : String)
  | arr (elems : List Json)
  | obj (fields : List (String × Json))

def Json.isNull : Json → Bool
  | .null => true
  | _ => false

/-- JS truthiness of a parsed JSON value. -/
def truthy : Json → Bool
  | .null => false
  | .bool b => b
  | .num n => n ≠ 0
  | .str s => s ≠ ""
  | .arr _ => true
  | .obj _ => true

/-- Property lookup `o[k]` on a non-null parsed JSON value: `none` = `undefined`
(also for index-less lookups on primitives and arrays). On `null` the access
throws; `importFromJSON` guards that case separately. -/
def getF : Json → String → Option Json
  | .obj fields, k => (fields.reverse.find? (fun p => p.1 = k)).map (fun p => p.2)
  | _, _ => none

/-- `ToString` coercion of a parsed JSON value (as applied by `parseInt` and
`RegExp.prototype.test` to non-string arguments). -/
def jsToString : Json → String
  | .null => "null"
  | .bool b => if b then "true" else "false"
  | .num n => toString n
  | .str s => s
  | .arr es => String.intercalate "," (es.map (fun e => match e with
      | .null => ""
      | other => jsToStringShallow other))
  | .obj _ => "[object Object]"
where
  /-- one level is enough for the shapes reachable here -/
  jsToStringShallow : Json → String
    | .null => "null"
    | .bool b => if b then "true" else "false"
    | .num n => toString n
    | .str s => s
    | .arr _ => ""
    | .obj _ => "[object Object]"

/-- `SameValueZero`, as used by `Set.prototype.has` — except that two objects or
arrays produced by one `JSON.parse` are never the same reference, so object
members never compare equal. -/
def sameValueZero : Json → Json → Bool
  | .str a, .str b => a = b
  | .num a, .num b => a = b
  | .bool a, .bool b => a = b
  | .null, .null => true
  | _, _ => false

def requiredFields : List String := ["title", "author", "pages", "tag", "date"]

/-- The per-element body of the import loop. `Except.error ()` models the
`TypeError` thrown by `book[field]` when the element is `null` (caught by the
surrounding `try`). Returns the error strings pushed for this element and the
updated id set. -/
def checkBook (book : Json) (i : Nat) (ids : List Json) :
    Except Unit (List String × List Json) :=
  if book.isNull then .error ()
  else
    let missing := requiredFields.filterMap (fun f =>
      if truthy ((getF book f).getD .null) then none
      else some ("Book at index " ++ toString i ++ " is missing required field: " ++ f))
    let idv := (getF book "id").getD .null
    let idPart : List String × List Json :=
      if truthy idv then
        (if ids.any (fun w => sameValueZero w idv) then
            ["Duplicate ID found: " ++ jsToString idv]
          else [],
         ids ++ [idv])
      else ([], ids)
    let pagesv := (getF book "pages").getD .null
    let pagesErrs : List String :=
      if truthy pagesv && (jsParseIntDefault (jsToString pagesv)).isNone then
        ["Book at index " ++ toString i ++ " has invalid pages value: " ++ jsToString pagesv]
      else []
    let datev := (getF book "date").getD .null
    let dateErrs : List String :=
      if truthy datev && !dateShape (jsToString datev).data then
        ["Book at index " ++ toString i ++ " has invalid date format: " ++ jsToString datev]
      else []
    .ok (missing ++ idPart.1 ++ pagesErrs ++ dateErrs, idPart.2)

/-- The `for` loop of `importFromJSON`; the `Bool` records whether an element
access threw (ending the loop early, with the errors pushed so far kept). -/
def importLoop : List Json → Nat → List String → List Json → List String × Bool
  | [], _, errs, _ => (errs, false)
  | b :: rest, i, errs, ids =>
    match checkBook b i ids with
    | .error _ => (errs, true)
    | .ok (es, ids2) => importLoop rest (i + 1) (errs ++ es) ids2

structure ImportResult where
  valid : Bool
  data : Option (List Json)
  errors : List String

/-- `importFromJSON`, from the outcome of `JSON.parse` on the input text. -/
def importFromJSON : Except String Json → ImportResult
  | .error m => ⟨false, none, ["Invalid JSON: " ++ m]⟩
  | .ok j =>
    match j with
    | .arr books =>
      let r := importLoop books 0 [] []
      if r.2 then
        ⟨false, none, r.1 ++ ["Invalid JSON: Cannot read properties of null"]⟩
      else if r.1.isEmpty then ⟨true, some books, []⟩
      else ⟨false, none, r.1⟩
    | _ => ⟨false, none, ["Data must be an array of books"]⟩

/-- `JSON.stringify` of one in-memory book record (all fields are strings). -/
def bookToJson (b : Book) : Json :=
  .obj [("id", .str b.id), ("title", .str b.title), ("author", .str b.author),
        ("pages", .str b.pages), ("tag", .str b.tag), ("date", .str b.date),
        ("notes", .str b.notes), ("createdAt", .str b.createdAt),
        ("updatedAt", .str b.updatedAt)]

/-- `exportToJSON(books)` at the JSON-tree level. -/
def exportToJSON (books : List Book) : Json := .arr (books.map bookToJson)

/-! ## Aggregator (`stats.js`): average book length -/

/-- JS `+` where either side may be `NaN`. -/
def jsAdd : Option Int → Option Int → Option Int
  | some a, some b => some (a + b)
  | _, _ => none

/-- `Math.round` (half toward positive infinity) on an exact rational. -/
def jsMathRound (q : ℚ) : Int := ⌊q + 1 / 2⌋

/-- `calculateAverageBookLength(books)`: 0 for an empty collection, otherwise
`Math.round` of total pages over count. `book.pages || 0` turns a falsy (empty)
pages string into the number 0; a `NaN` from `parseInt` propagates through the
sum and the result (`none`). -/
def calculateAverageBookLength (books : List Book) : Option Int :=
  if books.length = 0 then some 0
  else
    let total := books.foldl
      (fun sum b => jsAdd sum (if b.pages = "" then some 0 else jsParseIntDefault b.pages))
      (some 0)
    match total with
    | none => none
    | some t => some (jsMathRound ((t : ℚ) / (books.length : ℚ)))

/-- Modelled from the spec: "rounded (nearest integer, ties rounding up)". -/
def specRoundHalfUp (q : ℚ) : Int := if q - ⌊q⌋ < 1 / 2 then ⌊q⌋ else ⌊q⌋ + 1

/-- The parsed page count of one record, used to state the aggregator's contract. -/
def pagesVal (b : Book) : Int :=
  ((if b.pages = "" then some 0 else jsParseIntDefault b.pages)).getD 0

/-- Modelled from the spec: "the pattern matches but the date does not exist" —
an existing (proleptic Gregorian) calendar date, stated directly on the
components of a `YYYY-MM-DD` string. -/
def realCalendarDate (s : String) : Bool :=
  match parseIsoDateChars s.data with
  | some (y, m, d) => 1 ≤ m && m ≤ 12 && 1 ≤ d && d ≤ daysInMonth y m
  | none => false

/-- Sortedness by a JS comparator: each adjacent pair compares `≤ 0`. -/
def sortedBy (cmp : Book → Book → Int) (l : List Book) : Prop :=
  l.Chain' (fun a b => cmp a b ≤ 0)

/-- The comparator `sortBooks` uses for each supported criterion (statement
helper; unrecognized criteria do not compare at all). -/
def criterionCmp : String → (Book → Book → Int)
  | "date-desc" => cmpDateDesc
  | "date-asc" => cmpDateAsc
  | "title-asc" => cmpTitleAsc
  | "title-desc" => cmpTitleDesc
  | "pages-desc" => cmpPagesDesc
  | "pages-asc" => cmpPagesAsc
  | _ => fun _ _ => 0

/-! # Theorems -/

/-! ## Generic helper lemmas -/

theorem isDig_not_space {c : Char} (h : isDig c = true) : jsIsSpace c = false := by
  simp only [isDig, Bool.and_eq_true, decide_eq_true_eq] at h
  simp only [jsIsSpace, Bool.or_eq_false_iff, decide_eq_false_iff_not]
  refine ⟨⟨⟨⟨⟨⟨⟨?_, ?_⟩, ?_⟩, ?_⟩, ?_⟩, ?_⟩, ?_⟩, ?_⟩ <;>
    rintro rfl <;> revert h <;> decide

theorem digitsVal_foldl_ge (l : List Char) (a : Nat) :
    a ≤ l.foldl (fun x c => x * 10 + digVal c) a := by
  induction l generalizing a with
  | nil => exact le_refl a
  | cons c rest ih => exact le_trans (by omega) (ih (a * 10 + digVal c))

theorem digitsVal_cons_ge (c : Char) (rest : List Char) (h : '1' ≤ c) :
    1 ≤ digitsVal (c :: rest) := by
  have h1 : 1 ≤ digVal c := by
    have h49 : 49 ≤ c.toNat := h
    have h48 : '0'.toNat = 48 := rfl
    simp only [digVal]
    omega
  have := digitsVal_foldl_ge rest (0 * 10 + digVal c)
  simp only [digitsVal, List.foldl_cons]
  omega

theorem pagesPattern_parse10 {s : String} (h : pagesPattern s.data = true) :
    ∃ n : Int, jsParseInt10 s = some n ∧ 1 ≤ n := by
  match hd : s.data with
  | [] => rw [hd] at h; simp [pagesPattern] at h
  | c :: rest =>
    rw [hd] at h
    simp only [pagesPattern, Bool.and_eq_true, decide_eq_true_eq] at h
    obtain ⟨⟨h1, h9⟩, hrest⟩ := h
    have hdig : isDig c = true := by
      simp only [isDig, Bool.and_eq_true, decide_eq_true_eq]
      exact ⟨le_trans (by decide) h1, h9⟩
    have hall : ∀ x ∈ c :: rest, isDig x = true := by
      intro x hx
      rcases List.mem_cons.mp hx with rfl | hx2
      · exact hdig
      · exact List.all_eq_true.mp hrest x hx2
    have hdrop : (c :: rest).dropWhile jsIsSpace = c :: rest :=
      List.dropWhile_cons_of_neg (by simp [isDig_not_space hdig])
    have htake : (c :: rest).takeWhile isDig = c :: rest :=
      List.takeWhile_eq_self_iff.mpr hall
    have hc1 : c ≠ '-' := by rintro rfl; revert h1; decide
    have hc2 : c ≠ '+' := by rintro rfl; revert h1; decide
    refine ⟨digitsVal (c :: rest), ?_, ?_⟩
    · unfold jsParseInt10
      rw [hd, hdrop]
      split
      · rename_i heq; injection heq with hch _; exact absurd hch hc1
      · rename_i heq; injection heq with hch _; exact absurd hch hc2
      · unfold jsParseIntCore
        rw [htake]
        simp
    · exact_mod_cast digitsVal_cons_ge c rest h1

theorem pagesPattern_parseDefault {s : String} (h : pagesPattern s.data = true) :
    (jsParseIntDefault s).isSome = true := by
  match hd : s.data with
  | [] => rw [hd] at h; simp [pagesPattern] at h
  | c :: rest =>
    rw [hd] at h
    simp only [pagesPattern, Bool.and_eq_true, decide_eq_true_eq] at h
    obtain ⟨⟨h1, h9⟩, hrest⟩ := h
    have hdig : isDig c = true := by
      simp only [isDig, Bool.and_eq_true, decide_eq_true_eq]
      exact ⟨le_trans (by decide) h1, h9⟩
    have hall : ∀ x ∈ c :: rest, isDig x = true := by
      intro x hx
      rcases List.mem_cons.mp hx with rfl | hx2
      · exact hdig
      · exact List.all_eq_true.mp hrest x hx2
    have hdrop : (c :: rest).dropWhile jsIsSpace = c :: rest :=
      List.dropWhile_cons_of_neg (by simp [isDig_not_space hdig])
    have htake : (c :: rest).takeWhile isDig = c :: rest :=
      List.takeWhile_eq_self_iff.mpr hall
    have hc1 : c ≠ '-' := by rintro rfl; revert h1; decide
    have hc2 : c ≠ '+' := by rintro rfl; revert h1; decide
    have hc0 : c ≠ '0' := by rintro rfl; revert h1; decide
    unfold jsParseIntDefault
    rw [hd, hdrop]
    split
    · rename_i heq; injection heq with hch _; exact absurd hch hc1
    · rename_i heq; injection heq with hch _; exact absurd hch hc2
    · unfold jsParseIntDefCore
      split
      · rename_i heq; injection heq with hch _; exact absurd hch hc0
      · rename_i heq; injection heq with hch _; exact absurd hch hc0
      · unfold jsParseIntCore
        rw [htake]
        simp

/-! ## C10: the `NotPositive` branch of `validatePages` is unreachable -/

/-- **C10.** For every input string, `validatePages` returns the `Required`
failure, the pattern (`Formatting`) failure, or the valid result: the final
`num <= 0` branch can never fire, because every string accepted by `^[1-9]\d*$`
parses to an integer ≥ 1. -/
theorem validatePages_notPositive_unreachable (s : String) :
    validatePages s = ⟨false, "Pages is required"⟩ ∨
    validatePages s = ⟨false, "Pages must be a positive integer"⟩ ∨
    validatePages s = ⟨true, ""⟩ := by
  unfold validatePages
  split
  · exact Or.inl rfl
  · split
    · exact Or.inr (Or.inl rfl)
    · rename_i hreq hpat
      simp only [Bool.not_eq_true', Bool.not_eq_false] at hpat
      obtain ⟨n, hn, h1⟩ := pagesPattern_parse10 hpat
      rw [hn]
      simp only
      rw [if_neg (by omega)]
      exact Or.inr (Or.inr rfl)

/-! ## C6: `validateBook` aggregates all field validators -/

theorem vErr_isNone (r : VResult) : (vErr r).isNone = r.valid := by
  unfold vErr; cases hr : r.valid <;> simp

theorem vErr_isSome (r : VResult) : (vErr r).isSome = !r.valid := by
  unfold vErr; cases hr : r.valid <;> simp

/-- **C6.** `validateBook` is valid exactly when every field validator passes;
every field is checked independently of the others (no short-circuit): each key
of the error map is present exactly when its own validator fails, so a candidate
with a single failing field yields exactly that key; and the error map is empty
exactly when the result is valid. -/
theorem validateBook_spec (b : BookCandidate) :
    ((validateBook b).valid =
      ((validateTitle b.title).valid && (validateAuthor b.author).valid &&
       (validatePages b.pages).valid && (validateTag b.tag).valid &&
       (validateDate b.date).valid)) ∧
    ((validateBook b).errors.title.isSome = !(validateTitle b.title).valid) ∧
    ((validateBook b).errors.author.isSome = !(validateAuthor b.author).valid) ∧
    ((validateBook b).errors.pages.isSome = !(validatePages b.pages).valid) ∧
    ((validateBook b).errors.tag.isSome = !(validateTag b.tag).valid) ∧
    ((validateBook b).errors.date.isSome = !(validateDate b.date).valid) ∧
    ((validateBook b).valid = true ↔
      (validateBook b).errors = ⟨none, none, none, none, none⟩) := by
  unfold validateBook
  cases hT : (validateTitle b.title).valid <;>
  cases hA : (validateAuthor b.author).valid <;>
  cases hP : (validatePages b.pages).valid <;>
  cases hG : (validateTag b.tag).valid <;>
  cases hD : (validateDate b.date).valid <;>
    simp_all [vErr]

/-! ## C1: `validateDate` -/

theorem datePattern_props {l : List Char} (h : datePattern l = true) :
    dateShape l = true ∧ l ≠ [] ∧ l.all jsIsSpace = false := by
  rcases l with _ | ⟨a, l⟩; · simp [datePattern] at h
  rcases l with _ | ⟨b, l⟩; · simp [datePattern] at h
  rcases l with _ | ⟨c, l⟩; · simp [datePattern] at h
  rcases l with _ | ⟨d, l⟩; · simp [datePattern] at h
  rcases l with _ | ⟨e, l⟩; · simp [datePattern] at h
  rcases l with _ | ⟨f, l⟩; · simp [datePattern] at h
  rcases l with _ | ⟨g, l⟩; · simp [datePattern] at h
  rcases l with _ | ⟨h2, l⟩; · simp [datePattern] at h
  rcases l with _ | ⟨i, l⟩; · simp [datePattern] at h
  rcases l with _ | ⟨j, l⟩; · simp [datePattern] at h
  rcases l with _ | ⟨k, l⟩
  case cons.cons.cons.cons.cons.cons.cons.cons.cons.cons.cons =>
    simp [datePattern] at h
  simp only [datePattern, Bool.and_eq_true, Bool.or_eq_true, decide_eq_true_eq] at h
  obtain ⟨⟨⟨⟨⟨⟨⟨ha, hb⟩, hc⟩, hd⟩, he⟩, hm⟩, hh⟩, hday⟩ := h
  have hf : isDig f = true ∧ isDig g = true := by
    rcases hm with ⟨⟨rfl, hg1⟩, hg9⟩ | ⟨rfl, (rfl | rfl) | rfl⟩
    · refine ⟨by decide, ?_⟩
      simp only [isDig, Bool.and_eq_true, decide_eq_true_eq]
      exact ⟨le_trans (by decide) hg1, hg9⟩
    all_goals exact ⟨by decide, by decide⟩
  have hi : isDig i = true ∧ isDig j = true := by
    rcases hday with (⟨⟨rfl, hj1⟩, hj9⟩ | ⟨rfl | rfl, hjd⟩) | ⟨rfl, rfl | rfl⟩
    · refine ⟨by decide, ?_⟩
      simp only [isDig, Bool.and_eq_true, decide_eq_true_eq]
      exact ⟨le_trans (by decide) hj1, hj9⟩
    · exact ⟨by decide, hjd⟩
    · exact ⟨by decide, hjd⟩
    all_goals exact ⟨by decide, by decide⟩
  refine ⟨?_, by simp, ?_⟩
  · simp only [dateShape, Bool.and_eq_true, decide_eq_true_eq]
    exact ⟨⟨⟨⟨⟨⟨⟨⟨⟨ha, hb⟩, hc⟩, hd⟩, he⟩, hf.1⟩, hf.2⟩, hh⟩, hi.1⟩, hi.2⟩
  · simp only [List.all_cons, Bool.and_eq_false_iff]
    exact Or.inl (isDig_not_space ha)

theorem jsDateMs_isSome_iff (s : String) : (jsDateMs s).isSome = realCalendarDate s := by
  cases h : parseIsoDateChars s.data with
  | none => simp [jsDateMs, realCalendarDate, h]
  | some t =>
    obtain ⟨y, m, d⟩ := t
    simp only [jsDateMs, realCalendarDate, h]
    split <;> simp_all

/-- **C1 (counterexample).** The empty string does not match the date pattern,
yet `validateDate` returns the `Required` failure, not the `Formatting` one. -/
theorem validateDate_empty_not_formatting :
    validateDate "" = ⟨false, "Date is required"⟩ ∧
    datePattern "".data = false ∧
    validateDate "" ≠ ⟨false, "Date must be in YYYY-MM-DD format"⟩ := by
  refine ⟨by decide, by decide, by decide⟩

/-- **C1 (amended).** For every string that matches the `YYYY-MM-DD` pattern
(month 01–12, day 01–31) but does not denote an existing calendar date,
`validateDate` returns invalid with the `InvalidCalendarDate` reason; for every
pattern-matching string denoting a real date it returns valid; and for every
*nonempty, not whitespace-only* string that does not match the pattern it
returns invalid with the `Formatting` reason (empty/whitespace-only input gets
the `Required` reason instead). -/
theorem validateDate_spec (s : String) :
    (datePattern s.data = true → realCalendarDate s = false →
      validateDate s = ⟨false, "Invalid date"⟩) ∧
    (datePattern s.data = true → realCalendarDate s = true →
      validateDate s = ⟨true, ""⟩) ∧
    (datePattern s.data = false → s ≠ "" → jsTrimEmpty s = false →
      validateDate s = ⟨false, "Date must be in YYYY-MM-DD format"⟩) := by
  refine ⟨?_, ?_, ?_⟩
  · intro hp hr
    obtain ⟨-, hne, htr⟩ := datePattern_props hp
    have hnil : ¬s = "" := by
      intro he; subst he; exact hne rfl
    have htrim : jsTrimEmpty s = false := htr
    have hjs : (jsDateMs s).isNone = true := by
      have := jsDateMs_isSome_iff s
      rw [hr] at this
      cases hj : jsDateMs s
      · rfl
      · rw [hj] at this; simp at this
    simp [validateDate, hnil, htrim, hp, hjs]
  · intro hp hr
    obtain ⟨-, hne, htr⟩ := datePattern_props hp
    have hnil : ¬s = "" := by
      intro he; subst he; exact hne rfl
    have htrim : jsTrimEmpty s = false := htr
    have hjs : (jsDateMs s).isNone = false := by
      have := jsDateMs_isSome_iff s
      rw [hr] at this
      cases hj : jsDateMs s
      · rw [hj] at this; simp at this
      · rfl
    simp [validateDate, hnil, htrim, hp, hjs]
  · intro hp hne htrim
    simp [validateDate, hne, htrim, hp]

/-- **C1 (witness).** The three documented examples, through the theorem. -/
theorem validateDate_spec_witness :
    validateDate "2025-02-30" = ⟨false, "Invalid date"⟩ ∧
    validateDate "2025-02-28" = ⟨true, ""⟩ ∧
    validateDate "2025/02/28" = ⟨false, "Date must be in YYYY-MM-DD format"⟩ :=
  ⟨(validateDate_spec "2025-02-30").1 (by decide) (by decide),
   (validateDate_spec "2025-02-28").2.1 (by decide) (by decide),
   (validateDate_spec "2025/02/28").2.2 (by decide) (by decide) (by decide)⟩

/-! ## C5: import is all-or-nothing -/

/-- **C5.** For every parse outcome of the input text, if any error is collected
the result is invalid and carries no records — and validity is exactly the
absence of errors. There is no partial acceptance. -/
theorem importFromJSON_allOrNothing (p : Except String Json) :
    ((importFromJSON p).errors ≠ [] →
      (importFromJSON p).valid = false ∧ (importFromJSON p).data = none) ∧
    ((importFromJSON p).valid = true ↔ (importFromJSON p).errors = []) := by
  cases p with
  | error m => simp [importFromJSON]
  | ok j =>
    cases j with
    | arr books =>
      simp only [importFromJSON]
      split
      · constructor
        · intro _; exact ⟨rfl, rfl⟩
        · simp
      · split
        · rename_i hemp
          constructor
          · intro h; simp at h
          · simp
        · rename_i hemp
          constructor
          · intro _; exact ⟨rfl, rfl⟩
          · simp only [List.isEmpty_iff] at hemp
            simp [hemp]
    | null => simp [importFromJSON]
    | bool v => simp [importFromJSON]
    | num n => simp [importFromJSON]
    | str sv => simp [importFromJSON]
    | obj fs => simp [importFromJSON]

/-- **C5 (witness).** A throwing parse: one error, invalid, no data. -/
theorem importFromJSON_allOrNothing_witness :
    (importFromJSON (.error "Unexpected token")).valid = false ∧
    (importFromJSON (.error "Unexpected token")).data = none :=
  (importFromJSON_allOrNothing (.error "Unexpected token")).1 (by simp [importFromJSON])

/-! ## C9: `getBooks` returns a defensive copy -/

theorem readArr_writeArr_ne (h : Heap) (r r2 : Nat) (l : List Book) (hne : r ≠ r2) :
    readArr (writeArr h r l) r2 = readArr h r2 := by
  unfold readArr writeArr
  rw [List.getElem?_set_ne hne]

theorem readArr_applyMuts_ne (ops : List (List Book → List Book)) (h : Heap)
    (r r2 : Nat) (hne : r ≠ r2) :
    readArr (applyMuts h r ops) r2 = readArr h r2 := by
  induction ops generalizing h with
  | nil => rfl
  | cons f ops ih =>
    unfold applyMuts
    simp only [List.foldl_cons]
    rw [show (List.foldl (fun hh g => writeArr hh r (g (readArr hh r))) (writeArr h r (f (readArr h r))) ops) = applyMuts (writeArr h r (f (readArr h r))) r ops from rfl]
    rw [ih]
    exact readArr_writeArr_ne h r r2 _ hne

/-- **C9.** `getBooks` hands back a reference to a freshly allocated array: no
sequence of mutations a caller performs on that snapshot changes the content of
the repository's canonical array. -/
theorem getBooks_defensive_copy (h : Heap) (booksRef : Nat)
    (ops : List (List Book → List Book)) (hv : booksRef < h.arrays.length) :
    readArr (applyMuts (getBooks h booksRef).1 (getBooks h booksRef).2 ops) booksRef =
      readArr h booksRef := by
  unfold getBooks allocArr
  have hsnap : h.arrays.length ≠ booksRef := by omega
  rw [readArr_applyMuts_ne _ _ _ _ hsnap]
  unfold readArr
  simp only
  rw [List.getElem?_append_left hv]

/-- **C9 (witness).** Concrete heap: the snapshot is emptied and overwritten,
the canonical array keeps its record. -/
theorem getBooks_defensive_copy_witness :
    readArr
      (applyMuts (getBooks ⟨[[⟨"b1", "T", "A", "100", "tag", "2025-01-02", "", "t0", "t0"⟩]]⟩ 0).1
        (getBooks ⟨[[⟨"b1", "T", "A", "100", "tag", "2025-01-02", "", "t0", "t0"⟩]]⟩ 0).2
        [fun _ => [], fun l => ⟨"x", "X", "X", "1", "x", "2020-01-01", "", "t", "t"⟩ :: l])
      0 =
      [⟨"b1", "T", "A", "100", "tag", "2025-01-02", "", "t0", "t0"⟩] := by
  rw [getBooks_defensive_copy _ _ _ (by decide)]
  rfl

/-! ## C3: `updateBook` -/

/-- **C3.** Updating an id that is not in the collection returns `null` and
leaves the collection unchanged; a successful update force-preserves the
original record's `id` and `createdAt` regardless of what the caller supplied
for them, and stamps `updatedAt` with the current time. -/
theorem updateBook_spec :
    (∀ (books : List Book) (id : String) (u : BookUpdates) (now : String),
      (∀ b ∈ books, b.id ≠ id) → updateBook books id u now = (none, books)) ∧
    (∀ (books : List Book) (id : String) (u : BookUpdates) (now : String) (nb : Book),
      (updateBook books id u now).1 = some nb →
      ∃ b ∈ books, b.id = id ∧ nb.id = b.id ∧ nb.createdAt = b.createdAt ∧
        nb.updatedAt = now) := by
  constructor
  · intro books id u now habs
    induction books with
    | nil => rfl
    | cons b rest ih =>
      have hb : ¬b.id = id := habs b (by simp)
      have hrest := ih (fun x hx => habs x (by simp [hx]))
      unfold updateBook
      rw [if_neg hb]
      simp [hrest]
  · intro books id u now nb
    induction books with
    | nil => intro h; simp [updateBook] at h
    | cons b rest ih =>
      intro h
      unfold updateBook at h
      by_cases hb : b.id = id
      · rw [if_pos hb] at h
        simp only [Option.some.injEq] at h
        refine ⟨b, by simp, hb, ?_, ?_, ?_⟩ <;> rw [← h] <;> rfl
      · rw [if_neg hb] at h
        simp only at h
        obtain ⟨x, hx, hrest⟩ := ih h
        exact ⟨x, by simp [hx], hrest⟩

/-- **C3 (witness).** A miss leaves a one-record collection untouched; a hit
with an update that tries to overwrite `id`, `createdAt` and `updatedAt` still
keeps the original `id`/`createdAt` and stamps `updatedAt = "t1"`. -/
theorem updateBook_spec_witness :
    updateBook [(⟨"b1", "T", "A", "100", "tag", "2025-01-02", "", "t0", "t0"⟩ : Book)] "zz"
        ⟨some "EVIL", some "NewTitle", none, none, none, none, none, some "EVIL", some "EVIL"⟩
        "t1" =
      (none, [(⟨"b1", "T", "A", "100", "tag", "2025-01-02", "", "t0", "t0"⟩ : Book)]) ∧
    (∃ b ∈ [(⟨"b1", "T", "A", "100", "tag", "2025-01-02", "", "t0", "t0"⟩ : Book)],
      b.id = "b1" ∧
      (⟨"b1", "NewTitle", "A", "100", "tag", "2025-01-02", "", "t0", "t1"⟩ : Book).id = b.id ∧
      (⟨"b1", "NewTitle", "A", "100", "tag", "2025-01-02", "", "t0", "t1"⟩ : Book).createdAt =
        b.createdAt ∧
      (⟨"b1", "NewTitle", "A", "100", "tag", "2025-01-02", "", "t0", "t1"⟩ : Book).updatedAt =
        "t1") :=
  ⟨updateBook_spec.1 _ "zz" _ "t1" (by decide),
   updateBook_spec.2 _ "b1"
     ⟨some "EVIL", some "NewTitle", none, none, none, none, none, some "EVIL", some "EVIL"⟩
     "t1" _ (by decide)⟩

/-! ## C8: average book length -/

theorem avg_fold_some (books : List Book) (a : Int)
    (hp : ∀ b ∈ books,
      (if b.pages = "" then some 0 else jsParseIntDefault b.pages).isSome = true) :
    books.foldl
        (fun sum b => jsAdd sum (if b.pages = "" then some 0 else jsParseIntDefault b.pages))
        (some a) =
      some (a + (books.map pagesVal).sum) := by
  induction books generalizing a with
  | nil => simp
  | cons b rest ih =>
    have hb := hp b (by simp)
    obtain ⟨v, hv⟩ := Option.isSome_iff_exists.mp hb
    simp only [List.foldl_cons, List.map_cons, List.sum_cons, pagesVal]
    rw [show jsAdd (some a) (if b.pages = "" then some 0 else jsParseIntDefault b.pages) =
          some (a + v) by rw [hv]; rfl]
    rw [ih (a + v) (fun x hx => hp x (by simp [hx])), hv]
    simp only [Option.getD_some]
    congr 1
    omega

theorem jsMathRound_eq_specRound (q : ℚ) : jsMathRound q = specRoundHalfUp q := by
  unfold jsMathRound specRoundHalfUp
  by_cases h : q - ⌊q⌋ < 1 / 2
  · rw [if_pos h]
    apply Int.floor_eq_iff.mpr
    have h1 := Int.floor_le q
    constructor
    · linarith
    · linarith
  · rw [if_neg h]
    push_neg at h
    apply Int.floor_eq_iff.mpr
    have h2 := Int.lt_floor_add_one q
    constructor
    · push_cast
      linarith
    · push_cast
      linarith

/-- **C8.** The average book length is 0 for the empty collection; for every
non-empty collection whose page counts parse, it is the quotient of total pages
over record count rounded to the nearest integer with ties rounding up. -/
theorem calculateAverageBookLength_spec :
    (calculateAverageBookLength [] = some 0) ∧
    (∀ books : List Book, books ≠ [] →
      (∀ b ∈ books,
        (if b.pages = "" then some 0 else jsParseIntDefault b.pages).isSome = true) →
      calculateAverageBookLength books =
        some (specRoundHalfUp (((books.map pagesVal).sum : ℚ) / (books.length : ℚ)))) := by
  constructor
  · rfl
  · intro books hne hp
    unfold calculateAverageBookLength
    rw [if_neg (by simpa using hne)]
    simp only
    rw [avg_fold_some books 0 hp]
    simp only [zero_add]
    rw [jsMathRound_eq_specRound]

/-- **C8 (witness).** Pages `[100, 201]` average to `151` (round-half-up, not
`150`); pages `[100, 200, 300]` average to `200`. -/
theorem calculateAverageBookLength_spec_witness :
    calculateAverageBookLength
        [(⟨"a", "T", "A", "100", "t", "2025-01-01", "", "t0", "t0"⟩ : Book),
         (⟨"b", "U", "B", "201", "t", "2025-01-02", "", "t0", "t0"⟩ : Book)] =
      some 151 ∧
    calculateAverageBookLength
        [(⟨"a", "T", "A", "100", "t", "2025-01-01", "", "t0", "t0"⟩ : Book),
         (⟨"b", "U", "B", "200", "t", "2025-01-02", "", "t0", "t0"⟩ : Book),
         (⟨"c", "V", "C", "300", "t", "2025-01-03", "", "t0", "t0"⟩ : Book)] =
      some 200 := by
  constructor
  · rw [calculateAverageBookLength_spec.2 _ (by simp) (by decide)]
    have hs : (List.map pagesVal
        [(⟨"a", "T", "A", "100", "t", "2025-01-01", "", "t0", "t0"⟩ : Book),
         (⟨"b", "U", "B", "201", "t", "2025-01-02", "", "t0", "t0"⟩ : Book)]).sum = 301 := by
      decide
    rw [hs]
    norm_num [specRoundHalfUp, Int.floor_eq_iff]
  · rw [calculateAverageBookLength_spec.2 _ (by simp) (by decide)]
    have hs : (List.map pagesVal
        [(⟨"a", "T", "A", "100", "t", "2025-01-01", "", "t0", "t0"⟩ : Book),
         (⟨"b", "U", "B", "200", "t", "2025-01-02", "", "t0", "t0"⟩ : Book),
         (⟨"c", "V", "C", "300", "t", "2025-01-03", "", "t0", "t0"⟩ : Book)]).sum = 600 := by
      decide
    rw [hs]
    norm_num [specRoundHalfUp, Int.floor_eq_iff]

/-! ## C2: `highlightMatches` -/

theorem jsReplaceAllAux_eq_render (exec : List Char → Option (Nat × Nat))
    (f : List Char → List Char) (fuel : Nat) (s : List Char) :
    jsReplaceAllAux exec f fuel s = renderPieces f (matchPiecesAux exec fuel s) := by
  induction fuel generalizing s with
  | zero => simp [jsReplaceAllAux, matchPiecesAux, renderPieces]
  | succ fuel ih =>
    unfold jsReplaceAllAux matchPiecesAux
    cases hx : exec s with
    | none => simp [renderPieces]
    | some p =>
      obtain ⟨i, len⟩ := p
      simp only
      by_cases hlen : len = 0
      · rw [if_pos hlen, if_pos hlen]
        cases hr : s.drop i with
        | nil => simp [renderPieces]
        | cons c cs => simp [renderPieces, ih]
      · rw [if_neg hlen, if_neg hlen]
        simp [renderPieces, ih]

theorem piecesContent_matchPieces (exec : List Char → Option (Nat × Nat))
    (fuel : Nat) (s : List Char) :
    piecesContent (matchPiecesAux exec fuel s) = s := by
  induction fuel generalizing s with
  | zero => simp [matchPiecesAux, piecesContent]
  | succ fuel ih =>
    unfold matchPiecesAux
    cases hx : exec s with
    | none => simp [piecesContent]
    | some p =>
      obtain ⟨i, len⟩ := p
      simp only
      by_cases hlen : len = 0
      · rw [if_pos hlen]
        cases hr : s.drop i with
        | nil =>
          simp only [piecesContent, List.append_nil]
          have hle : s.length ≤ i := by
            have := congrArg List.length hr
            simp at this
            omega
          exact List.take_of_length_le hle
        | cons c cs =>
          simp only [piecesContent, ih, List.nil_append, List.singleton_append]
          rw [← hr]
          exact List.take_append_drop i s
      · rw [if_neg hlen]
        simp only [piecesContent, ih]
        rw [List.take_append_drop len (s.drop i), List.take_append_drop i s]

/-- **C2 (counterexample).** With no matcher supplied, `highlightMatches`
returns the original text, not the escaped text: the code's first guard
(`if (!regex || !text) return text`) skips the escaping step. -/
theorem highlightMatches_none_unescaped :
    highlightMatches "<" none = "<" ∧
    escapeHtml "<".data = "&lt;".data ∧
    ("<" : String) ≠ "&lt;" :=
  ⟨rfl, by decide, by decide⟩

/-- **C2 (amended).** When no matcher is supplied, or the text is empty,
`highlightMatches` returns the original text unmodified (not escaped); on a
highlighting failure it returns the original text rather than propagating the
error; and for a global matcher that does not fail it first escapes the text and
then wraps every non-overlapping match span in a `<mark>` marker — the rendered
pieces carry exactly the escaped text. -/
theorem highlightMatches_spec (text : String) (r : JsRegex) :
    (highlightMatches text none = text) ∧
    (r.throws = true → highlightMatches text (some r) = text) ∧
    (text = "" → highlightMatches text (some r) = text) ∧
    (r.throws = false → r.global = true → text ≠ "" →
      highlightMatches text (some r) =
        ⟨renderPieces wrapMark (matchPieces r.exec (escapeHtml text.data))⟩ ∧
      piecesContent (matchPieces r.exec (escapeHtml text.data)) = escapeHtml text.data) := by
  refine ⟨rfl, ?_, ?_, ?_⟩
  · intro ht
    unfold highlightMatches
    by_cases he : text = "" <;> simp [he, ht]
  · intro he
    simp [highlightMatches, he]
  · intro hth hg hne
    constructor
    · show (if text = "" then text
          else if r.throws = true then text
          else ⟨jsReplace r wrapMark (escapeHtml text.data)⟩) =
        (⟨renderPieces wrapMark (matchPieces r.exec (escapeHtml text.data))⟩ : String)
      rw [if_neg hne, if_neg (by simp [hth])]
      unfold jsReplace
      rw [if_pos hg]
      rw [jsReplaceAllAux_eq_render]
      rfl
    · exact piecesContent_matchPieces r.exec _ _

/-- **C2 (witness).** A concrete global single-character matcher on `"aXa"`:
both occurrences of `a` get wrapped after escaping. -/
theorem highlightMatches_spec_witness :
    highlightMatches "aXa"
        (some ⟨true, false, fun s => (findCharIdx 'a' s).map (fun i => (i, 1))⟩) =
      "<mark>a</mark>X<mark>a</mark>" := by
  have h := (highlightMatches_spec "aXa"
    ⟨true, false, fun s => (findCharIdx 'a' s).map (fun i => (i, 1))⟩).2.2.2
    rfl rfl (by decide)
  exact h.1.trans (by decide)

/-! ## C7: `sortBooks` -/

theorem filter_insertC_pos (cmp : Book → Book → Int) (p : Book → Bool) (x : Book)
    (m : List Book) (hpx : p x = true) (hx : ∀ y ∈ m, p y = true → cmp x y ≤ 0) :
    (insertC cmp x m).filter p = x :: m.filter p := by
  induction m with
  | nil => simp [insertC, hpx]
  | cons y ys ih =>
    unfold insertC
    by_cases h : cmp x y ≤ 0
    · rw [if_pos h]
      simp [List.filter_cons, hpx]
    · rw [if_neg h]
      have hpy : p y = false := by
        cases hpy : p y
        · rfl
        · exact absurd (hx y (by simp) hpy) h
      simp only [List.filter_cons, hpy, Bool.false_eq_true, if_false,
        ih (fun z hz hpz => hx z (by simp [hz]) hpz), hpx, if_true]

theorem filter_insertC_neg (cmp : Book → Book → Int) (p : Book → Bool) (x : Book)
    (m : List Book) (hpx : p x = false) :
    (insertC cmp x m).filter p = m.filter p := by
  induction m with
  | nil => simp [insertC, hpx]
  | cons y ys ih =>
    unfold insertC
    by_cases h : cmp x y ≤ 0
    · rw [if_pos h]
      simp [List.filter_cons, hpx]
    · rw [if_neg h]
      simp [List.filter_cons, ih]

theorem sortC_filter_key {κ : Type} [DecidableEq κ] (cmp : Book → Book → Int)
    (key : Book → κ) (hk : ∀ a b, key a = key b → cmp a b ≤ 0)
    (l : List Book) (k : κ) :
    (sortC cmp l).filter (fun y => key y = k) = l.filter (fun y => key y = k) := by
  induction l with
  | nil => rfl
  | cons x xs ih =>
    unfold sortC
    by_cases hpx : key x = k
    · rw [filter_insertC_pos cmp _ x _ (by simp [hpx])
        (fun y _ hpy => hk x y (by simp at hpy; rw [hpx, hpy]))]
      rw [ih, List.filter_cons_of_pos (by simp [hpx])]
    · rw [filter_insertC_neg cmp _ x _ (by simp [hpx]), ih,
        List.filter_cons_of_neg (by simp [hpx])]

theorem sortC_of_chain (cmp : Book → Book → Int) (l : List Book)
    (hl : List.Chain' (fun a b => cmp a b ≤ 0) l) : sortC cmp l = l := by
  induction l with
  | nil => rfl
  | cons x xs ih =>
    unfold sortC
    rw [ih hl.tail]
    cases xs with
    | nil => rfl
    | cons y ys =>
      unfold insertC
      rw [if_pos (List.chain'_cons.mp hl).1]

theorem optSub_self (u : Option Int) : optSub u u = 0 := by
  cases u <;> simp [optSub]

theorem listCompare_self (a : List Char) : listCompare a a = 0 := by
  induction a with
  | nil => rfl
  | cons x xs ih =>
    unfold listCompare
    rw [if_neg (lt_irrefl x), if_neg (lt_irrefl x)]
    exact ih

theorem strCompare_self (a : String) : strCompare a a = 0 := listCompare_self a.data

/-- **C7.** The sorter leaves the caller's array untouched (it sorts a copy);
an unrecognized criterion returns the collection in its original order; for
every supported criterion, records with equal sort keys keep their relative
input order (stability, stated as preservation of every key class); and a
collection already sorted by a criterion is returned identically. -/
theorem sortBooks_spec :
    (∀ (books : List Book) (c : String), (sortBooksEff books c).2 = books) ∧
    (∀ (books : List Book) (c : String), c ∉ supportedCriteria →
      sortBooks books c = books) ∧
    (∀ (books : List Book) (k : Option Int),
      (∀ b ∈ books, (jsDateMs b.date).isSome = true) →
      (sortBooks books "date-desc").filter (fun b => jsDateMs b.date = k) =
          books.filter (fun b => jsDateMs b.date = k) ∧
        (sortBooks books "date-asc").filter (fun b => jsDateMs b.date = k) =
          books.filter (fun b => jsDateMs b.date = k)) ∧
    (∀ (books : List Book) (k : String),
      (sortBooks books "title-asc").filter (fun b => b.title = k) =
          books.filter (fun b => b.title = k) ∧
        (sortBooks books "title-desc").filter (fun b => b.title = k) =
          books.filter (fun b => b.title = k)) ∧
    (∀ (books : List Book) (k : Option Int),
      (∀ b ∈ books, (jsParseIntDefault b.pages).isSome = true) →
      (sortBooks books "pages-desc").filter (fun b => jsParseIntDefault b.pages = k) =
          books.filter (fun b => jsParseIntDefault b.pages = k) ∧
        (sortBooks books "pages-asc").filter (fun b => jsParseIntDefault b.pages = k) =
          books.filter (fun b => jsParseIntDefault b.pages = k)) ∧
    (∀ (books : List Book) (c : String), c ∈ supportedCriteria →
      sortedBy (criterionCmp c) books → sortBooks books c = books) := by
  refine ⟨fun _ _ => rfl, ?_, ?_, ?_, ?_, ?_⟩
  · intro books c hc
    simp only [supportedCriteria, List.mem_cons, List.not_mem_nil, or_false,
      not_or] at hc
    obtain ⟨h1, h2, h3, h4, h5, h6⟩ := hc
    simp [sortBooks, h1, h2, h3, h4, h5, h6]
  · intro books k _
    constructor
    · rw [show sortBooks books "date-desc" = sortC cmpDateDesc books by simp [sortBooks]]
      refine sortC_filter_key cmpDateDesc (fun b => jsDateMs b.date) ?_ books k
      intro a b h
      have h2 : jsDateMs a.date = jsDateMs b.date := h
      unfold cmpDateDesc
      rw [← h2, optSub_self]
    · rw [show sortBooks books "date-asc" = sortC cmpDateAsc books by simp [sortBooks]]
      refine sortC_filter_key cmpDateAsc (fun b => jsDateMs b.date) ?_ books k
      intro a b h
      have h2 : jsDateMs a.date = jsDateMs b.date := h
      unfold cmpDateAsc
      rw [h2, optSub_self]
  · intro books k
    constructor
    · rw [show sortBooks books "title-asc" = sortC cmpTitleAsc books by simp [sortBooks]]
      refine sortC_filter_key cmpTitleAsc (fun b => b.title) ?_ books k
      intro a b h
      have h2 : a.title = b.title := h
      unfold cmpTitleAsc
      rw [h2, strCompare_self]
    · rw [show sortBooks books "title-desc" = sortC cmpTitleDesc books by simp [sortBooks]]
      refine sortC_filter_key cmpTitleDesc (fun b => b.title) ?_ books k
      intro a b h
      have h2 : a.title = b.title := h
      unfold cmpTitleDesc
      rw [h2, strCompare_self]
  · intro books k _
    constructor
    · rw [show sortBooks books "pages-desc" = sortC cmpPagesDesc books by simp [sortBooks]]
      refine sortC_filter_key cmpPagesDesc (fun b => jsParseIntDefault b.pages) ?_ books k
      intro a b h
      have h2 : jsParseIntDefault a.pages = jsParseIntDefault b.pages := h
      unfold cmpPagesDesc
      rw [← h2, optSub_self]
    · rw [show sortBooks books "pages-asc" = sortC cmpPagesAsc books by simp [sortBooks]]
      refine sortC_filter_key cmpPagesAsc (fun b => jsParseIntDefault b.pages) ?_ books k
      intro a b h
      have h2 : jsParseIntDefault a.pages = jsParseIntDefault b.pages := h
      unfold cmpPagesAsc
      rw [h2, optSub_self]
  · intro books c hc hs
    simp only [supportedCriteria, List.mem_cons, List.not_mem_nil, or_false] at hc
    rcases hc with rfl | rfl | rfl | rfl | rfl | rfl
    · rw [show sortBooks books "date-desc" = sortC cmpDateDesc books by simp [sortBooks]]
      exact sortC_of_chain _ _ hs
    · rw [show sortBooks books "date-asc" = sortC cmpDateAsc books by simp [sortBooks]]
      exact sortC_of_chain _ _ hs
    · rw [show sortBooks books "title-asc" = sortC cmpTitleAsc books by simp [sortBooks]]
      exact sortC_of_chain _ _ hs
    · rw [show sortBooks books "title-desc" = sortC cmpTitleDesc books by simp [sortBooks]]
      exact sortC_of_chain _ _ hs
    · rw [show sortBooks books "pages-desc" = sortC cmpPagesDesc books by simp [sortBooks]]
      exact sortC_of_chain _ _ hs
    · rw [show sortBooks books "pages-asc" = sortC cmpPagesAsc books by simp [sortBooks]]
      exact sortC_of_chain _ _ hs

/-- **C7 (witness).** Concrete instances: a bogus criterion is the identity; the
key class of an equal-date pair is preserved under `date-desc`; and an
already-sorted pair is returned identically by `pages-asc`. -/
theorem sortBooks_spec_witness :
    sortBooks
        [(⟨"a", "T", "A", "100", "t", "2025-01-01", "", "t0", "t0"⟩ : Book),
         (⟨"b", "U", "B", "200", "t", "2025-01-02", "", "t0", "t0"⟩ : Book)] "bogus" =
      [(⟨"a", "T", "A", "100", "t", "2025-01-01", "", "t0", "t0"⟩ : Book),
       (⟨"b", "U", "B", "200", "t", "2025-01-02", "", "t0", "t0"⟩ : Book)] ∧
    (sortBooks
        [(⟨"a", "T", "A", "100", "t", "2025-01-01", "", "t0", "t0"⟩ : Book),
         (⟨"b", "U", "B", "200", "t", "2025-01-01", "", "t0", "t0"⟩ : Book)] "date-desc").filter
        (fun b => jsDateMs b.date = jsDateMs "2025-01-01") =
      ([(⟨"a", "T", "A", "100", "t", "2025-01-01", "", "t0", "t0"⟩ : Book),
        (⟨"b", "U", "B", "200", "t", "2025-01-01", "", "t0", "t0"⟩ : Book)]).filter
        (fun b => jsDateMs b.date = jsDateMs "2025-01-01") ∧
    sortBooks
        [(⟨"a", "T", "A", "100", "t", "2025-01-01", "", "t0", "t0"⟩ : Book),
         (⟨"b", "U", "B", "200", "t", "2025-01-02", "", "t0", "t0"⟩ : Book)] "pages-asc" =
      [(⟨"a", "T", "A", "100", "t", "2025-01-01", "", "t0", "t0"⟩ : Book),
       (⟨"b", "U", "B", "200", "t", "2025-01-02", "", "t0", "t0"⟩ : Book)] :=
  ⟨sortBooks_spec.2.1 _ "bogus" (by decide),
   (sortBooks_spec.2.2.1 _ _ (by decide)).1,
   sortBooks_spec.2.2.2.2.2 _ "pages-asc" (by decide)
     (List.chain'_cons.mpr ⟨by decide, List.chain'_singleton _⟩)⟩

/-! ## C4: export/import round trip -/

theorem validateBook_valid_decomp (bc : BookCandidate)
    (h : (validateBook bc).valid = true) :
    (validateTitle bc.title).valid = true ∧ (validateAuthor bc.author).valid = true ∧
    (validatePages bc.pages).valid = true ∧ (validateTag bc.tag).valid = true ∧
    (validateDate bc.date).valid = true := by
  unfold validateBook at h
  simp only [vErr_isNone, Bool.and_eq_true] at h
  exact ⟨h.1.1.1.1, h.1.1.1.2, h.1.1.2, h.1.2, h.2⟩

theorem validateTitle_valid_ne {v : String} (h : (validateTitle v).valid = true) :
    v ≠ "" := by
  rintro rfl; revert h; decide

theorem validateAuthor_valid_ne {v : String} (h : (validateAuthor v).valid = true) :
    v ≠ "" := by
  rintro rfl; revert h; decide

theorem validateTag_valid_ne {v : String} (h : (validateTag v).valid = true) :
    v ≠ "" := by
  rintro rfl; revert h; decide

theorem validatePages_valid_pattern {v : String}
    (h : (validatePages v).valid = true) : pagesPattern v.data = true := by
  unfold validatePages at h
  split at h
  · simp at h
  · split at h
    · rename_i h2
      simp at h
    · rename_i h2
      simpa using h2

theorem validateDate_valid_pattern {v : String}
    (h : (validateDate v).valid = true) : datePattern v.data = true := by
  unfold validateDate at h
  split at h
  · simp at h
  · split at h
    · rename_i h2
      simp at h
    · rename_i h2
      simpa using h2

theorem getF_bookToJson (b : Book) :
    getF (bookToJson b) "title" = some (.str b.title) ∧
    getF (bookToJson b) "author" = some (.str b.author) ∧
    getF (bookToJson b) "pages" = some (.str b.pages) ∧
    getF (bookToJson b) "tag" = some (.str b.tag) ∧
    getF (bookToJson b) "date" = some (.str b.date) ∧
    getF (bookToJson b) "id" = some (.str b.id) :=
  ⟨rfl, rfl, rfl, rfl, rfl, rfl⟩

theorem any_sameValueZero_str (ids : List String) (x : String) :
    (ids.map Json.str).any (fun w => sameValueZero w (.str x)) = decide (x ∈ ids) := by
  induction ids with
  | nil => simp
  | cons y ys ih =>
    rw [List.map_cons, List.any_cons,
      show sameValueZero (Json.str y) (Json.str x) = decide (y = x) from rfl, ih]
    by_cases h : x = y
    · simp [h]
    · simp [h]
      intro hyx
      exact absurd hyx.symm h

theorem checkBook_bookToJson (b : Book) (i : Nat) (ids : List Json)
    (ht : b.title ≠ "") (ha : b.author ≠ "") (hg : b.tag ≠ "")
    (hpe : b.pages ≠ "") (hde : b.date ≠ "")
    (hpn : (jsParseIntDefault b.pages).isNone = false)
    (hds : dateShape b.date.data = true)
    (hid : ids.any (fun w => sameValueZero w (.str b.id)) = false) :
    checkBook (bookToJson b) i ids =
      .ok ([], if b.id = "" then ids else ids ++ [.str b.id]) := by
  obtain ⟨hT, hA, hP, hG, hD, hI⟩ := getF_bookToJson b
  unfold checkBook
  rw [if_neg (by rw [show (bookToJson b).isNull = false from rfl]; simp)]
  by_cases hbid : b.id = "" <;>
    simp [requiredFields, hT, hA, hP, hG, hD, hI, truthy, jsToString, hpn, hds, hid,
      ht, ha, hg, hpe, hde, hbid]

theorem importLoop_clean (books : List Book) :
    ∀ (i : Nat) (errs : List String) (ids : List String),
    (∀ b ∈ books, b.title ≠ "" ∧ b.author ≠ "" ∧ b.tag ≠ "" ∧
      pagesPattern b.pages.data = true ∧ datePattern b.date.data = true) →
    (∀ b ∈ books, b.id ∉ ids) →
    (books.map Book.id).Nodup →
    importLoop (books.map bookToJson) i errs (ids.map Json.str) = (errs, false) := by
  induction books with
  | nil => intro i errs ids _ _ _; rfl
  | cons b rest ih =>
    intro i errs ids hgood hfresh hnodup
    obtain ⟨ht, ha, hg, hpp, hdp⟩ := hgood b (by simp)
    have hpe : b.pages ≠ "" := by
      intro he
      have : pagesPattern ("" : String).data = true := he ▸ hpp
      revert this; decide
    have hde : b.date ≠ "" := by
      intro he
      have : datePattern ("" : String).data = true := he ▸ hdp
      revert this; decide
    have hpn : (jsParseIntDefault b.pages).isNone = false := by
      have h2 := pagesPattern_parseDefault hpp
      cases hx : jsParseIntDefault b.pages
      · rw [hx] at h2; simp at h2
      · rfl
    have hds := (datePattern_props hdp).1
    have hid : ((ids.map Json.str).any (fun w => sameValueZero w (.str b.id))) = false := by
      rw [any_sameValueZero_str]
      simp [hfresh b (by simp)]
    rw [List.map_cons]
    unfold importLoop
    rw [checkBook_bookToJson b i (ids.map Json.str) ht ha hg hpe hde hpn hds hid]
    simp only
    rw [List.append_nil]
    have hnodup2 : (rest.map Book.id).Nodup := by
      rw [List.map_cons] at hnodup
      exact (List.nodup_cons.mp hnodup).2
    by_cases hbid : b.id = ""
    · rw [if_pos hbid]
      exact ih (i + 1) errs ids (fun x hx => hgood x (by simp [hx]))
        (fun x hx => hfresh x (by simp [hx])) hnodup2
    · rw [if_neg hbid]
      rw [show ids.map Json.str ++ [Json.str b.id] = (ids ++ [b.id]).map Json.str by simp]
      refine ih (i + 1) errs (ids ++ [b.id]) (fun x hx => hgood x (by simp [hx])) ?_ hnodup2
      intro x hx hmem
      rcases List.mem_append.mp hmem with hxin | hxeq
      · exact hfresh x (by simp [hx]) hxin
      · have hxid : x.id = b.id := by simpa using hxeq
        have hmem2 : x.id ∈ rest.map Book.id := List.mem_map_of_mem Book.id hx
        have hnb : b.id ∉ rest.map Book.id := by
          rw [List.map_cons] at hnodup
          exact (List.nodup_cons.mp hnodup).1
        exact hnb (hxid ▸ hmem2)

/-- **C4.** Importing the export of any record set whose records pass the field
validators and whose ids are pairwise distinct yields `valid = true`, no errors,
and exactly the original record sequence (element-for-element, field-for-field,
in interchange form). -/
theorem importFromJSON_exportToJSON_roundtrip (books : List Book)
    (hval : ∀ b ∈ books,
      (validateBook ⟨b.title, b.author, b.pages, b.tag, b.date⟩).valid = true)
    (hids : (books.map Book.id).Nodup) :
    importFromJSON (.ok (exportToJSON books)) =
      ⟨true, some (books.map bookToJson), []⟩ := by
  have hgood : ∀ b ∈ books, b.title ≠ "" ∧ b.author ≠ "" ∧ b.tag ≠ "" ∧
      pagesPattern b.pages.data = true ∧ datePattern b.date.data = true := by
    intro b hb
    obtain ⟨h1, h2, h3, h4, h5⟩ := validateBook_valid_decomp _ (hval b hb)
    exact ⟨validateTitle_valid_ne h1, validateAuthor_valid_ne h2, validateTag_valid_ne h4,
      validatePages_valid_pattern h3, validateDate_valid_pattern h5⟩
  have hloop := importLoop_clean books 0 [] [] hgood (by simp) hids
  rw [show (([] : List String).map Json.str) = ([] : List Json) from rfl] at hloop
  simp [importFromJSON, exportToJSON, hloop]

/-- **C4 (witness).** A concrete two-record collection survives the round trip. -/
theorem importFromJSON_exportToJSON_roundtrip_witness :
    importFromJSON (.ok (exportToJSON
        [(⟨"id1", "Dune", "Frank Herbert", "412", "Fiction", "2025-01-02", "", "t0", "t0"⟩ : Book),
         (⟨"id2", "Educated", "Tara Westover", "334", "Memoir", "2025-02-03", "", "t0", "t0"⟩ : Book)])) =
      ⟨true,
       some (List.map bookToJson
        [(⟨"id1", "Dune", "Frank Herbert", "412", "Fiction", "2025-01-02", "", "t0", "t0"⟩ : Book),
         (⟨"id2", "Educated", "Tara Westover", "334", "Memoir", "2025-02-03", "", "t0", "t0"⟩ : Book)]),
       []⟩ :=
  importFromJSON_exportToJSON_roundtrip _ (by decide) (by decide)

end BooksVault
